import Mathlib

/-!
Shallow embedding of `src/src/main.rs` (a Solana RPC transaction/block
normalizer) and proofs of the specification's claims about it.

Conventions of the embedding:
* Rust `Vec<T>` becomes `List T`; `u64`/`usize` become `Nat` (with an
  explicit `% 2 ^ 64` wherever `u64` overflow matters); `i64` becomes `Int`
  (no `i64` arithmetic occurs in the modelled code); `Option<T>` becomes
  `Option T`; `String` becomes `String`.
* The opaque `serde_json::Value` error payload of `RpcMeta.err` is modelled
  as a `String`: the code only ever tests its presence (`is_none`).
* Unchecked indexing that can panic (`tx.signatures[0]`,
  `message.account_keys[0]`) makes the embedded function return `Option`:
  `none` models the panic.
* Rust's `format!("{}", n)` decimal rendering of an integer is modelled by
  `decimalString` below, built from `Nat.digits 10`.
-/

namespace Phase1

/-- The `u64` modulus: Rust `u64` arithmetic is arithmetic modulo `2 ^ 64`
(release-profile wrapping semantics). -/
def U64_MOD : Nat := 2 ^ 64

/-- Base-10 digits of `n`, least significant first, driven by a fuel
argument so that the recursion is structural (and hence evaluates inside
the kernel). Agrees with `Nat.digits 10 n` whenever `n < fuel`. -/
def decDigitsAux (fuel n : Nat) : List Nat :=
  match fuel with
  | 0 => []
  | fuel + 1 => if n = 0 then [] else n % 10 :: decDigitsAux fuel (n / 10)

/-- Decimal digits of `n`, most significant first, with `0` rendered as the
single digit `0` (exactly the digit sequence Rust's `{}` formatting of an
unsigned integer prints). -/
def decimalDigits (n : Nat) : List Nat :=
  if n = 0 then [0] else (decDigitsAux (n + 1) n).reverse

/-- Standard decimal rendering of a natural number; models Rust's `{}`
(`Display`) formatting for `usize`/`u64`. -/
def decimalString (n : Nat) : String :=
  ⟨(decimalDigits n).map Nat.digitChar⟩

/- ==========================================
   RAW (RPC INPUT) STRUCTS — from `main.rs` lines 53-146
   ========================================== -/

/-- `RpcInstruction`: one raw instruction (`programIdIndex`, `accounts`,
`data`). -/
structure RpcInstruction where
  program_id_index : Nat
  accounts : List Nat
  data : String
deriving DecidableEq, Repr

/-- `RpcMessage`: static account keys plus raw instructions. -/
structure RpcMessage where
  account_keys : List String
  instructions : List RpcInstruction
deriving DecidableEq, Repr

/-- `RpcTransactionContainer`: signatures plus the message. -/
structure RpcTransactionContainer where
  signatures : List String
  message : RpcMessage
deriving DecidableEq, Repr

/-- `RpcLoadedAddresses`: addresses loaded from lookup tables. -/
structure RpcLoadedAddresses where
  writable : List String
  readonly : List String
deriving DecidableEq, Repr

/-- `RpcMeta`: per-transaction metadata. `err`'s payload is opaque JSON in
the source; only its presence is ever inspected. -/
structure RpcMeta where
  err : Option String
  log_messages : List String
  pre_balances : List Nat
  post_balances : List Nat
  loaded_addresses : Option RpcLoadedAddresses
  fee : Nat
  compute_units_consumed : Option Nat
deriving DecidableEq, Repr

/-- `RpcReward`: one raw block reward entry. -/
structure RpcReward where
  pubkey : String
  lamports : Int
  post_balance : Nat
  reward_type : String
  commission : Option Nat
deriving DecidableEq, Repr

/-- `RpcBlockTransaction`: a raw (meta, transaction) pair inside a block. -/
structure RpcBlockTransaction where
  meta : RpcMeta
  transaction : RpcTransactionContainer
deriving DecidableEq, Repr

/-- `RpcBlockResult`: one raw block. -/
structure RpcBlockResult where
  block_height : Nat
  block_time : Int
  blockhash : String
  parent_slot : Nat
  previous_blockhash : String
  rewards : List RpcReward
  transactions : List RpcBlockTransaction
deriving DecidableEq, Repr

/- ==========================================
   DESTINATION STRUCTS — from `main.rs` lines 9-48
   ========================================== -/

/-- `ParsedInstruction`: resolved program id, resolved account addresses,
and the untouched data payload. -/
structure ParsedInstruction where
  program_id : String
  accounts : List String
  data : String
deriving DecidableEq, Repr

/-- `ParsedTransaction`: the normalized transaction record. -/
structure ParsedTransaction where
  signature : String
  fee_payer : String
  is_success : Bool
  account_keys : List String
  instructions : List ParsedInstruction
  log_messages : List String
  pre_balances : List Nat
  post_balances : List Nat
  fee : Nat
  compute_units_consumed : Option Nat
deriving DecidableEq, Repr

/-- `BlockReward`: the normalized reward record (field-for-field copy of
`RpcReward`). -/
structure BlockReward where
  pubkey : String
  lamports : Int
  post_balance : Nat
  reward_type : String
  commission : Option Nat
deriving DecidableEq, Repr

/-- `ParsedBlock`: the normalized block record. -/
structure ParsedBlock where
  block_height : Nat
  block_time : Int
  blockhash : String
  parent_slot : Nat
  previous_blockhash : String
  rewards : List BlockReward
  transactions : List ParsedTransaction
deriving DecidableEq, Repr

/- ==========================================
   SHARED TRANSACTION PARSING LOGIC — `parse_single_transaction`,
   `main.rs` lines 238-290
   ========================================== -/

/-- The account-table construction of `parse_single_transaction`
(lines 245-249): static keys, extended by the loaded writable then readonly
addresses when the `loadedAddresses` extension is present. -/
def allAccountKeys (message : RpcMessage) (meta : RpcMeta) : List String :=
  match meta.loaded_addresses with
  | some loaded => message.account_keys ++ loaded.writable ++ loaded.readonly
  | none => message.account_keys

/-- Program-id resolution (lines 254-258): the table entry at
`program_id_index` when in range, otherwise the fixed sentinel
`"UNKNOWN_PROGRAM_INDEX"`. -/
def resolveProgramId (all_account_keys : List String) (program_id_index : Nat) : String :=
  if h : program_id_index < all_account_keys.length then
    all_account_keys.get ⟨program_id_index, h⟩
  else
    "UNKNOWN_PROGRAM_INDEX"

/-- Account-index resolution (lines 261-269): the table entry at `idx` when
in range, otherwise the sentinel `format!("UNKNOWN_IDX_{}", idx)`. -/
def resolveAccountIndex (all_account_keys : List String) (idx : Nat) : String :=
  if h : idx < all_account_keys.length then
    all_account_keys.get ⟨idx, h⟩
  else
    "UNKNOWN_IDX_" ++ decimalString idx

/-- The body of the instruction-mapping closure of
`parse_single_transaction` (lines 252-276). -/
def parseInstruction (all_account_keys : List String) (ix : RpcInstruction) : ParsedInstruction :=
  { program_id := resolveProgramId all_account_keys ix.program_id_index
    accounts := ix.accounts.map (resolveAccountIndex all_account_keys)
    data := ix.data }

/-- `parse_single_transaction` (lines 238-290). The Rust function performs
two unchecked `[0]` accesses (`tx.signatures[0]`,
`message.account_keys[0]`); the panic those raise on an empty vector is
modelled by returning `none`. -/
def parse_single_transaction (tx : RpcTransactionContainer) (meta : RpcMeta) :
    Option ParsedTransaction :=
  let message := tx.message
  let all_account_keys := allAccountKeys message meta
  let parsed_instructions := message.instructions.map (parseInstruction all_account_keys)
  match tx.signatures, message.account_keys with
  | sig0 :: _, payer0 :: _ =>
      some
        { signature := sig0
          fee_payer := payer0
          is_success := meta.err.isNone
          account_keys := all_account_keys
          instructions := parsed_instructions
          log_messages := meta.log_messages
          pre_balances := meta.pre_balances
          post_balances := meta.post_balances
          fee := meta.fee
          compute_units_consumed := meta.compute_units_consumed }
  | _, _ => none

/- ==========================================
   BLOCK PARSER — the pure core of `test_block`, `main.rs` lines 204-230
   ========================================== -/

/-- The reward-mapping closure of `test_block` (lines 207-215): a
field-for-field copy into `BlockReward`. -/
def parseReward (r : RpcReward) : BlockReward :=
  { pubkey := r.pubkey
    lamports := r.lamports
    post_balance := r.post_balance
    reward_type := r.reward_type
    commission := r.commission }

/-- The pure core of `test_block` (lines 204-230): map the rewards, parse
every transaction in input order, and assemble the `ParsedBlock`. A panic
inside any per-transaction parse aborts the whole run, modelled by `mapM`
over `Option`. -/
def parseBlock (block : RpcBlockResult) : Option ParsedBlock :=
  let rewards := block.rewards.map parseReward
  (block.transactions.mapM
      (fun tx => parse_single_transaction tx.transaction tx.meta)).map
    (fun parsed_txs =>
      { block_height := block.block_height
        block_time := block.block_time
        blockhash := block.blockhash
        parent_slot := block.parent_slot
        previous_blockhash := block.previous_blockhash
        rewards := rewards
        transactions := parsed_txs })

/- ==========================================
   BLOCK SUMMARY STATISTICS — the derived view of `print_block_summary`,
   `main.rs` lines 354-356
   ========================================== -/

/-- The derived reporting view computed by `print_block_summary`. -/
structure BlockStats where
  successful : Nat
  failed : Nat
  total_fees : Nat
deriving DecidableEq, Repr

/-- The statistics of `print_block_summary` (lines 354-356):
`successful` counts transactions with `is_success`, `failed` is the
remainder, and `total_fees` sums the fees in a `u64` accumulator (each
addition wraps modulo `2 ^ 64`; the debug profile would panic instead of
wrapping — either way the accumulator is 64 bits wide). -/
def blockStats (block : ParsedBlock) : BlockStats :=
  let successful := (block.transactions.filter (fun tx => tx.is_success)).length
  let failed := block.transactions.length - successful
  let total_fees :=
    (block.transactions.map (fun tx => tx.fee)).foldl (fun acc f => (acc + f) % U64_MOD) 0
  { successful := successful, failed := failed, total_fees := total_fees }

/- ==========================================
   HELPER LEMMAS
   ========================================== -/

/-- The fuel-based digit computation agrees with `Nat.digits 10`. -/
lemma decDigitsAux_eq_digits :
    ∀ (fuel n : Nat), n < fuel → decDigitsAux fuel n = Nat.digits 10 n := by
  intro fuel
  induction fuel with
  | zero => intro n h; omega
  | succ fuel ih =>
    intro n h
    by_cases hn : n = 0
    · simp [decDigitsAux, hn]
    · rw [decDigitsAux]
      simp only [hn, if_false]
      have hdiv : n / 10 < n := Nat.div_lt_self (Nat.pos_of_ne_zero hn) (by norm_num)
      rw [ih (n / 10) (by omega),
        ← Nat.digits_def' (by norm_num : 1 < 10) (Nat.pos_of_ne_zero hn)]

lemma decimalDigits_of_ne_zero {n : Nat} (hn : n ≠ 0) :
    decimalDigits n = (Nat.digits 10 n).reverse := by
  rw [decimalDigits, if_neg hn, decDigitsAux_eq_digits (n + 1) n (by omega)]

lemma digits_ne_zero_single {n : Nat} (hn : n ≠ 0) : Nat.digits 10 n ≠ [0] := by
  intro h
  have h2 := Nat.ofDigits_digits 10 n
  rw [h] at h2
  simp [Nat.ofDigits] at h2
  exact hn h2.symm

lemma decimalDigits_injective : Function.Injective decimalDigits := by
  intro m n h
  by_cases hm : m = 0 <;> by_cases hn : n = 0
  · omega
  · rw [decimalDigits, if_pos hm, decimalDigits_of_ne_zero hn] at h
    exfalso
    refine digits_ne_zero_single hn ?_
    have h2 := congrArg List.reverse h
    simpa using h2.symm
  · rw [decimalDigits_of_ne_zero hm, decimalDigits, if_pos hn] at h
    exfalso
    refine digits_ne_zero_single hm ?_
    have h2 := congrArg List.reverse h
    simpa using h2
  · rw [decimalDigits_of_ne_zero hm, decimalDigits_of_ne_zero hn, List.reverse_inj] at h
    exact Nat.digits_inj_iff.mp h

lemma mem_decimalDigits_lt {n d : Nat} (hd : d ∈ decimalDigits n) : d < 10 := by
  by_cases hn : n = 0
  · rw [decimalDigits, if_pos hn] at hd
    simp at hd
    omega
  · rw [decimalDigits_of_ne_zero hn, List.mem_reverse] at hd
    exact Nat.digits_lt_base (by norm_num) hd

lemma digitChar_inj_lt {a b : Nat} (ha : a < 10) (hb : b < 10)
    (h : Nat.digitChar a = Nat.digitChar b) : a = b := by
  interval_cases a <;> interval_cases b <;> revert h <;> decide

lemma map_digitChar_inj : ∀ (l1 l2 : List Nat), (∀ x ∈ l1, x < 10) → (∀ x ∈ l2, x < 10) →
    l1.map Nat.digitChar = l2.map Nat.digitChar → l1 = l2 := by
  intro l1
  induction l1 with
  | nil => intro l2 _ _ h; cases l2 <;> simp_all
  | cons a l1 ih =>
    intro l2 h1 h2 h
    cases l2 with
    | nil => simp_all
    | cons b l2 =>
      simp only [List.map_cons, List.cons.injEq] at h
      have hab := digitChar_inj_lt (h1 a (by simp)) (h2 b (by simp)) h.1
      have := ih l2 (fun x hx => h1 x (by simp [hx])) (fun x hx => h2 x (by simp [hx])) h.2
      simp_all

lemma decimalString_injective : Function.Injective decimalString := by
  intro m n h
  have hd := congrArg String.data h
  simp only [decimalString] at hd
  exact decimalDigits_injective
    (map_digitChar_inj _ _ (fun x hx => mem_decimalDigits_lt hx)
      (fun x hx => mem_decimalDigits_lt hx) hd)

lemma unknown_idx_sentinel_inj {i j : Nat} (h : i ≠ j) :
    "UNKNOWN_IDX_" ++ decimalString i ≠ "UNKNOWN_IDX_" ++ decimalString j := by
  intro heq
  apply h
  apply decimalString_injective
  have h2 := congrArg String.data heq
  rw [String.data_append, String.data_append] at h2
  exact String.ext (List.append_cancel_left h2)

/-- Everything `parse_single_transaction` guarantees about a successful
result, in one place. -/
lemma parse_single_transaction_some {tx : RpcTransactionContainer} {meta : RpcMeta}
    {p : ParsedTransaction} (h : parse_single_transaction tx meta = some p) :
    (∃ ss, tx.signatures = p.signature :: ss) ∧
    (∃ ks, tx.message.account_keys = p.fee_payer :: ks) ∧
    p.is_success = meta.err.isNone ∧
    p.account_keys = allAccountKeys tx.message meta ∧
    p.instructions =
      tx.message.instructions.map (parseInstruction (allAccountKeys tx.message meta)) ∧
    p.log_messages = meta.log_messages ∧
    p.pre_balances = meta.pre_balances ∧
    p.post_balances = meta.post_balances ∧
    p.fee = meta.fee ∧
    p.compute_units_consumed = meta.compute_units_consumed := by
  rcases hs : tx.signatures with _ | ⟨s, ss⟩ <;>
    rcases hk : tx.message.account_keys with _ | ⟨k, ks⟩ <;>
      simp only [parse_single_transaction, hs, hk, Option.some.injEq,
        reduceCtorEq] at h
  subst h
  exact ⟨⟨ss, rfl⟩, ⟨ks, rfl⟩, rfl, rfl, rfl, rfl, rfl, rfl, rfl, rfl⟩

/-- Elementwise description of a successful `List.mapM` over `Option`. -/
lemma mapM_option_getElem {α β : Type} (f : α → Option β) :
    ∀ (l : List α) (r : List β), l.mapM f = some r →
      r.length = l.length ∧ ∀ i : Nat, r[i]? = (l[i]?).bind f := by
  intro l
  induction l with
  | nil =>
    intro r h
    rw [List.mapM_nil] at h
    have hr : r = [] := by simpa using h.symm
    subst hr
    simp
  | cons a l ih =>
    intro r h
    rw [List.mapM_cons] at h
    rcases ha : f a with _ | b <;> rw [ha] at h
    · simp at h
    rcases hl : l.mapM f with _ | r' <;> rw [hl] at h
    · simp at h
    simp at h
    obtain ⟨hlen, helem⟩ := ih r' hl
    subst h
    refine ⟨by simp [hlen], ?_⟩
    intro i
    cases i with
    | zero => simp [ha]
    | succ i => simpa using helem i

/-- The wrapping `u64` fold of `blockStats` computes the sum modulo
`2 ^ 64`. -/
lemma foldl_u64_sum (l : List Nat) : ∀ a : Nat,
    l.foldl (fun acc f => (acc + f) % U64_MOD) (a % U64_MOD) = (a + l.sum) % U64_MOD := by
  induction l with
  | nil => intro a; simp
  | cons f l ih =>
    intro a
    simp only [List.foldl_cons, List.sum_cons]
    rw [Nat.mod_add_mod, ih (a + f), Nat.add_assoc]

/- ==========================================
   SAMPLE INPUTS (used by witnesses)
   ========================================== -/

/-- A sample raw instruction: program index 0 in range, account index 9
out of range. -/
def exIx : RpcInstruction :=
  { program_id_index := 0, accounts := [1, 9], data := "x" }

/-- The normalized form of `exIx` against the table `["A","B","W","R"]`. -/
def exPix : ParsedInstruction :=
  { program_id := "A", accounts := ["B", "UNKNOWN_IDX_9"], data := "x" }

/-- A sample raw transaction: two static keys and one instruction whose
second account index (9) is out of range. -/
def exTx : RpcTransactionContainer :=
  { signatures := ["sig1"]
    message := { account_keys := ["A", "B"], instructions := [exIx] } }

/-- A sample raw meta with a loaded-address extension. -/
def exMeta : RpcMeta :=
  { err := none
    log_messages := ["log"]
    pre_balances := [10, 5]
    post_balances := [9, 6]
    loaded_addresses := some { writable := ["W"], readonly := ["R"] }
    fee := 7
    compute_units_consumed := some 3 }

/-- The normalized form of `exTx`/`exMeta`. -/
def exParsed : ParsedTransaction :=
  { signature := "sig1"
    fee_payer := "A"
    is_success := true
    account_keys := ["A", "B", "W", "R"]
    instructions := [exPix]
    log_messages := ["log"]
    pre_balances := [10, 5]
    post_balances := [9, 6]
    fee := 7
    compute_units_consumed := some 3 }

/-- A sample raw block holding one reward and one transaction. -/
def exBlock : RpcBlockResult :=
  { block_height := 10
    block_time := 20
    blockhash := "bh"
    parent_slot := 30
    previous_blockhash := "pbh"
    rewards := [{ pubkey := "rw", lamports := -5, post_balance := 100,
                  reward_type := "Rent", commission := some 3 }]
    transactions := [{ meta := exMeta, transaction := exTx }] }

/-- The normalized form of `exBlock`. -/
def exParsedBlock : ParsedBlock :=
  { block_height := 10
    block_time := 20
    blockhash := "bh"
    parent_slot := 30
    previous_blockhash := "pbh"
    rewards := [{ pubkey := "rw", lamports := -5, post_balance := 100,
                  reward_type := "Rent", commission := some 3 }]
    transactions := [exParsed] }

/-- The raw meta used by the fee-overflow counterexample: a successful
transaction whose fee is `2 ^ 63` (a valid `u64`). -/
def bigFeeMeta : RpcMeta :=
  { err := none
    log_messages := []
    pre_balances := []
    post_balances := []
    loaded_addresses := none
    fee := 2 ^ 63
    compute_units_consumed := none }

/-- A minimal raw transaction container with no instructions. -/
def tinyTx : RpcTransactionContainer :=
  { signatures := ["s"], message := { account_keys := ["k"], instructions := [] } }

/-- A raw block whose two transaction fees sum to `2 ^ 64`, overflowing the
`u64` fee accumulator. -/
def overflowRawBlock : RpcBlockResult :=
  { block_height := 0
    block_time := 0
    blockhash := "h"
    parent_slot := 0
    previous_blockhash := "g"
    rewards := []
    transactions :=
      [{ meta := bigFeeMeta, transaction := tinyTx },
       { meta := bigFeeMeta, transaction := tinyTx }] }

/- ==========================================
   CLAIM THEOREMS
   ========================================== -/

/-- C1: for every instruction of a transaction, normalization resolves the
program address to the account-table entry at the program-id index when
that index is in range and otherwise substitutes the fixed sentinel
`"UNKNOWN_PROGRAM_INDEX"`; it resolves each account index to the table
entry at that position when in range and otherwise substitutes a sentinel
embedding the offending index; and the instruction's opaque data payload is
carried over unchanged. -/
theorem C1_instruction_resolution (tx : RpcTransactionContainer) (meta : RpcMeta)
    (p : ParsedTransaction) (h : parse_single_transaction tx meta = some p)
    (i : Nat) (ix : RpcInstruction) (pix : ParsedInstruction)
    (hix : tx.message.instructions[i]? = some ix)
    (hpix : p.instructions[i]? = some pix) :
    (ix.program_id_index < (allAccountKeys tx.message meta).length →
      some pix.program_id = (allAccountKeys tx.message meta)[ix.program_id_index]?) ∧
    ((allAccountKeys tx.message meta).length ≤ ix.program_id_index →
      pix.program_id = "UNKNOWN_PROGRAM_INDEX") ∧
    (∀ (j idx : Nat), ix.accounts[j]? = some idx →
      (idx < (allAccountKeys tx.message meta).length →
        pix.accounts[j]? = (allAccountKeys tx.message meta)[idx]?) ∧
      ((allAccountKeys tx.message meta).length ≤ idx →
        pix.accounts[j]? = some ("UNKNOWN_IDX_" ++ decimalString idx))) ∧
    pix.data = ix.data := by
  obtain ⟨-, -, -, -, hins, -⟩ := parse_single_transaction_some h
  rw [hins, List.getElem?_map, hix, Option.map_some'] at hpix
  have hpix2 : pix = parseInstruction (allAccountKeys tx.message meta) ix :=
    (Option.some.injEq _ _ ▸ hpix).symm
  subst hpix2
  refine ⟨?_, ?_, ?_, rfl⟩
  · intro hlt
    simp [parseInstruction, resolveProgramId, hlt, List.getElem?_eq_getElem]
  · intro hge
    simp [parseInstruction, resolveProgramId, Nat.not_lt.mpr hge]
  · intro j idx hj
    constructor
    · intro hlt
      simp [parseInstruction, List.getElem?_map, hj, resolveAccountIndex, hlt,
        List.getElem?_eq_getElem]
    · intro hge
      simp [parseInstruction, List.getElem?_map, hj, resolveAccountIndex,
        Nat.not_lt.mpr hge]

/-- Witness for C1 at the sample transaction: instruction 0 resolves
account index 1 in range and account index 9 to its sentinel. -/
theorem C1_instruction_resolution_witness :
    (exIx.program_id_index < (allAccountKeys exTx.message exMeta).length →
      some exPix.program_id =
        (allAccountKeys exTx.message exMeta)[exIx.program_id_index]?) ∧
    ((allAccountKeys exTx.message exMeta).length ≤ exIx.program_id_index →
      exPix.program_id = "UNKNOWN_PROGRAM_INDEX") ∧
    (∀ (j idx : Nat), exIx.accounts[j]? = some idx →
      (idx < (allAccountKeys exTx.message exMeta).length →
        exPix.accounts[j]? = (allAccountKeys exTx.message exMeta)[idx]?) ∧
      ((allAccountKeys exTx.message exMeta).length ≤ idx →
        exPix.accounts[j]? = some ("UNKNOWN_IDX_" ++ decimalString idx))) ∧
    exPix.data = exIx.data :=
  C1_instruction_resolution exTx exMeta exParsed (by decide) 0 exIx exPix
    (by decide) (by decide)

/-- C2: the account table equals static keys ++ loaded writable ++ loaded
readonly (and just the static keys when the extension is absent),
preserving order and duplicates. -/
theorem C2_account_table_order (tx : RpcTransactionContainer) (meta : RpcMeta)
    (p : ParsedTransaction) (h : parse_single_transaction tx meta = some p) :
    (∀ la : RpcLoadedAddresses, meta.loaded_addresses = some la →
      p.account_keys = tx.message.account_keys ++ la.writable ++ la.readonly) ∧
    (meta.loaded_addresses = none → p.account_keys = tx.message.account_keys) := by
  obtain ⟨-, -, -, hak, -⟩ := parse_single_transaction_some h
  constructor
  · intro la hla
    simp [hak, allAccountKeys, hla]
  · intro hla
    simp [hak, allAccountKeys, hla]

/-- Witness for C2 at the sample transaction. -/
theorem C2_account_table_order_witness :
    exParsed.account_keys = exTx.message.account_keys ++ ["W"] ++ ["R"] :=
  (C2_account_table_order exTx exMeta exParsed (by decide)).1
    { writable := ["W"], readonly := ["R"] } (by decide)

/-- C3 counterexample: two instructions with different out-of-range
program-id indices (5 and 6 against a table of length 1) produce the same
sentinel, so the claim that all sentinels for different out-of-range
indices differ — including program-id references — is false. -/
theorem C3_counterexample :
    (RpcInstruction.mk 5 [] "d").program_id_index ≠
      (RpcInstruction.mk 6 [] "d").program_id_index ∧
    ¬ (RpcInstruction.mk 5 [] "d").program_id_index < (["A"] : List String).length ∧
    ¬ (RpcInstruction.mk 6 [] "d").program_id_index < (["A"] : List String).length ∧
    (parseInstruction ["A"] (RpcInstruction.mk 5 [] "d")).program_id =
      (parseInstruction ["A"] (RpcInstruction.mk 6 [] "d")).program_id := by
  refine ⟨by decide, by decide, by decide, by decide⟩

/-- C3 (amended): for account-index references, every out-of-range index
produces the sentinel `"UNKNOWN_IDX_" ++ decimal of the index`, and two
different out-of-range account indices always produce different sentinels;
out-of-range program-id references instead all produce the single fixed
sentinel `"UNKNOWN_PROGRAM_INDEX"`, which embeds no index. -/
theorem C3_sentinel_distinctness (t1 t2 : List String) (i j : Nat)
    (hi : t1.length ≤ i) (hj : t2.length ≤ j) (hij : i ≠ j) :
    resolveAccountIndex t1 i = "UNKNOWN_IDX_" ++ decimalString i ∧
    resolveAccountIndex t2 j = "UNKNOWN_IDX_" ++ decimalString j ∧
    resolveAccountIndex t1 i ≠ resolveAccountIndex t2 j ∧
    resolveProgramId t1 i = "UNKNOWN_PROGRAM_INDEX" ∧
    resolveProgramId t2 j = "UNKNOWN_PROGRAM_INDEX" := by
  have h1 : resolveAccountIndex t1 i = "UNKNOWN_IDX_" ++ decimalString i := by
    simp [resolveAccountIndex, Nat.not_lt.mpr hi]
  have h2 : resolveAccountIndex t2 j = "UNKNOWN_IDX_" ++ decimalString j := by
    simp [resolveAccountIndex, Nat.not_lt.mpr hj]
  refine ⟨h1, h2, ?_, ?_, ?_⟩
  · rw [h1, h2]
    exact unknown_idx_sentinel_inj hij
  · simp [resolveProgramId, Nat.not_lt.mpr hi]
  · simp [resolveProgramId, Nat.not_lt.mpr hj]

/-- Witness for the amended C3: indices 0 and 1 against empty tables give
distinct sentinels. -/
theorem C3_sentinel_distinctness_witness :
    resolveAccountIndex ([] : List String) 0 ≠ resolveAccountIndex ([] : List String) 1 :=
  (C3_sentinel_distinctness [] [] 0 1 (by decide) (by decide) (by decide)).2.2.1

/-- C4 counterexample: a block of two transactions with fee `2 ^ 63` each.
The `u64` accumulation wraps to `0`, while the exact mathematical sum is
`2 ^ 64`, so `total_fees` does not equal the exact sum. -/
theorem C4_counterexample :
    (parseBlock overflowRawBlock).map (fun b => (blockStats b).total_fees) = some 0 ∧
    (parseBlock overflowRawBlock).map
        (fun b => (b.transactions.map (fun tx => tx.fee)).sum) = some (2 ^ 63 + 2 ^ 63) ∧
    (0 : Nat) ≠ 2 ^ 63 + 2 ^ 63 := by
  refine ⟨by decide, by decide, by norm_num⟩

/-- C4 (amended): `successful + failed` always equals the number of
transactions; `total_fees` equals the sum of the fees reduced modulo
`2 ^ 64` (the `u64` accumulator), which equals the exact mathematical sum
whenever that sum fits in a `u64`. -/
theorem C4_aggregate_consistency (block : ParsedBlock) :
    (blockStats block).successful + (blockStats block).failed =
      block.transactions.length ∧
    (blockStats block).total_fees =
      (block.transactions.map (fun tx => tx.fee)).sum % U64_MOD ∧
    ((block.transactions.map (fun tx => tx.fee)).sum < U64_MOD →
      (blockStats block).total_fees = (block.transactions.map (fun tx => tx.fee)).sum) := by
  have hle := List.length_filter_le (fun tx => tx.is_success) block.transactions
  have hfold := foldl_u64_sum (block.transactions.map (fun tx => tx.fee)) 0
  rw [Nat.zero_mod, Nat.zero_add] at hfold
  refine ⟨?_, ?_, ?_⟩
  · simp only [blockStats]
    omega
  · simp only [blockStats]
    exact hfold
  · intro hlt
    simp only [blockStats]
    rw [hfold]
    exact Nat.mod_eq_of_lt hlt

/-- Witness for the amended C4 at the sample block (exact sum 7 fits). -/
theorem C4_aggregate_consistency_witness :
    (blockStats exParsedBlock).total_fees =
      (exParsedBlock.transactions.map (fun tx => tx.fee)).sum :=
  (C4_aggregate_consistency exParsedBlock).2.2 (by decide)

/-- C5: the normalized transaction's success flag is true iff the raw
meta's error value is absent. -/
theorem C5_success_flag (tx : RpcTransactionContainer) (meta : RpcMeta)
    (p : ParsedTransaction) (h : parse_single_transaction tx meta = some p) :
    p.is_success = true ↔ meta.err = none := by
  obtain ⟨-, -, hsucc, -⟩ := parse_single_transaction_some h
  rw [hsucc]
  exact Option.isNone_iff_eq_none

/-- Witness for C5 at the sample transaction. -/
theorem C5_success_flag_witness : exParsed.is_success = true ↔ exMeta.err = none :=
  C5_success_flag exTx exMeta exParsed (by decide)

/-- C6: when the signature sequence and the static account-key sequence are
non-empty, the normalized signature is the first signature and the fee
payer is the first static account key. -/
theorem C6_signature_fee_payer (tx : RpcTransactionContainer) (meta : RpcMeta)
    (p : ParsedTransaction) (h : parse_single_transaction tx meta = some p)
    (s k : String) (ss ks : List String)
    (hs : tx.signatures = s :: ss) (hk : tx.message.account_keys = k :: ks) :
    p.signature = s ∧ p.fee_payer = k := by
  obtain ⟨⟨ss2, hs2⟩, ⟨ks2, hk2⟩, -⟩ := parse_single_transaction_some h
  rw [hs] at hs2
  rw [hk] at hk2
  exact ⟨(List.cons.injEq _ _ _ _ ▸ hs2).1.symm, (List.cons.injEq _ _ _ _ ▸ hk2).1.symm⟩

/-- Witness for C6 at the sample transaction. -/
theorem C6_signature_fee_payer_witness :
    exParsed.signature = "sig1" ∧ exParsed.fee_payer = "A" :=
  C6_signature_fee_payer exTx exMeta exParsed (by decide) "sig1" "A" [] ["B"]
    (by decide) (by decide)

/-- C7: index resolution is total — for any table and any index, both the
program-id resolver and the account resolver return a string that is either
an entry of the table or the respective sentinel. -/
theorem C7_resolution_totality (table : List String) (idx : Nat) :
    (resolveProgramId table idx ∈ table ∨
      resolveProgramId table idx = "UNKNOWN_PROGRAM_INDEX") ∧
    (resolveAccountIndex table idx ∈ table ∨
      resolveAccountIndex table idx = "UNKNOWN_IDX_" ++ decimalString idx) := by
  by_cases h : idx < table.length
  · constructor
    · left
      simp only [resolveProgramId, dif_pos h]
      exact List.get_mem table idx h
    · left
      simp only [resolveAccountIndex, dif_pos h]
      exact List.get_mem table idx h
  · constructor
    · right
      simp [resolveProgramId, h]
    · right
      simp [resolveAccountIndex, h]

/-- C8: block normalization copies the header fields, copies the reward
list field-for-field in order, and normalizes each raw transaction in input
order via `parse_single_transaction`. -/
theorem C8_block_assembly (block : RpcBlockResult) (pb : ParsedBlock)
    (h : parseBlock block = some pb) :
    pb.block_height = block.block_height ∧
    pb.block_time = block.block_time ∧
    pb.blockhash = block.blockhash ∧
    pb.parent_slot = block.parent_slot ∧
    pb.previous_blockhash = block.previous_blockhash ∧
    pb.rewards.length = block.rewards.length ∧
    (∀ (i : Nat) (r : RpcReward), block.rewards[i]? = some r →
      pb.rewards[i]? =
        some (BlockReward.mk r.pubkey r.lamports r.post_balance r.reward_type r.commission)) ∧
    pb.transactions.length = block.transactions.length ∧
    (∀ (i : Nat) (btx : RpcBlockTransaction), block.transactions[i]? = some btx →
      pb.transactions[i]? = parse_single_transaction btx.transaction btx.meta) := by
  simp only [parseBlock] at h
  rcases hm : block.transactions.mapM
      (fun tx => parse_single_transaction tx.transaction tx.meta) with _ | txs <;>
    rw [hm] at h
  · simp at h
  simp only [Option.map_some', Option.some.injEq] at h
  subst h
  obtain ⟨hlen, helem⟩ := mapM_option_getElem _ _ _ hm
  refine ⟨rfl, rfl, rfl, rfl, rfl, by simp, ?_, hlen, ?_⟩
  · intro i r hr
    simp [List.getElem?_map, hr, parseReward]
  · intro i btx hb
    rw [helem i, hb]
    rfl

/-- Witness for C8 at the sample block. -/
theorem C8_block_assembly_witness :
    exParsedBlock.block_height = exBlock.block_height ∧
    exParsedBlock.block_time = exBlock.block_time ∧
    exParsedBlock.blockhash = exBlock.blockhash ∧
    exParsedBlock.parent_slot = exBlock.parent_slot ∧
    exParsedBlock.previous_blockhash = exBlock.previous_blockhash ∧
    exParsedBlock.rewards.length = exBlock.rewards.length ∧
    (∀ (i : Nat) (r : RpcReward), exBlock.rewards[i]? = some r →
      exParsedBlock.rewards[i]? =
        some (BlockReward.mk r.pubkey r.lamports r.post_balance r.reward_type r.commission)) ∧
    exParsedBlock.transactions.length = exBlock.transactions.length ∧
    (∀ (i : Nat) (btx : RpcBlockTransaction), exBlock.transactions[i]? = some btx →
      exParsedBlock.transactions[i]? = parse_single_transaction btx.transaction btx.meta) :=
  C8_block_assembly exBlock exParsedBlock (by decide)

/-- C9: balances, fee, compute units and log messages are copied verbatim
from the raw meta into the normalized transaction. -/
theorem C9_meta_passthrough (tx : RpcTransactionContainer) (meta : RpcMeta)
    (p : ParsedTransaction) (h : parse_single_transaction tx meta = some p) :
    p.pre_balances = meta.pre_balances ∧
    p.post_balances = meta.post_balances ∧
    p.fee = meta.fee ∧
    p.compute_units_consumed = meta.compute_units_consumed ∧
    p.log_messages = meta.log_messages := by
  obtain ⟨-, -, -, -, -, hlog, hpre, hpost, hfee, hcu⟩ := parse_single_transaction_some h
  exact ⟨hpre, hpost, hfee, hcu, hlog⟩

/-- Witness for C9 at the sample transaction. -/
theorem C9_meta_passthrough_witness :
    exParsed.pre_balances = exMeta.pre_balances ∧
    exParsed.post_balances = exMeta.post_balances ∧
    exParsed.fee = exMeta.fee ∧
    exParsed.compute_units_consumed = exMeta.compute_units_consumed ∧
    exParsed.log_messages = exMeta.log_messages :=
  C9_meta_passthrough exTx exMeta exParsed (by decide)

/-- C10: normalization preserves instruction shape — one normalized
instruction per raw instruction at the same position, and per instruction
one resolved address per raw account index at the same position. -/
theorem C10_shape_preservation (tx : RpcTransactionContainer) (meta : RpcMeta)
    (p : ParsedTransaction) (h : parse_single_transaction tx meta = some p) :
    p.instructions.length = tx.message.instructions.length ∧
    ∀ (i : Nat) (ix : RpcInstruction), tx.message.instructions[i]? = some ix →
      ∃ pix, p.instructions[i]? = some pix ∧
        pix.accounts.length = ix.accounts.length ∧
        ∀ (j idx : Nat), ix.accounts[j]? = some idx →
          pix.accounts[j]? =
            some (resolveAccountIndex (allAccountKeys tx.message meta) idx) := by
  obtain ⟨-, -, -, -, hins, -⟩ := parse_single_transaction_some h
  rw [hins]
  refine ⟨List.length_map _ _, ?_⟩
  intro i ix hix
  refine ⟨parseInstruction (allAccountKeys tx.message meta) ix, ?_, ?_, ?_⟩
  · rw [List.getElem?_map, hix, Option.map_some']
  · simp [parseInstruction]
  · intro j idx hj
    simp [parseInstruction, List.getElem?_map, hj]

/-- Witness for C10 at the sample transaction. -/
theorem C10_shape_preservation_witness :
    exParsed.instructions.length = exTx.message.instructions.length ∧
    ∀ (i : Nat) (ix : RpcInstruction), exTx.message.instructions[i]? = some ix →
      ∃ pix, exParsed.instructions[i]? = some pix ∧
        pix.accounts.length = ix.accounts.length ∧
        ∀ (j idx : Nat), ix.accounts[j]? = some idx →
          pix.accounts[j]? =
            some (resolveAccountIndex (allAccountKeys exTx.message exMeta) idx) :=
  C10_shape_preservation exTx exMeta exParsed (by decide)

end Phase1
